import Mathlib

/-!
Verification development for the Blueprint orchestrator
(`src/orchestrator/...`).

The Python source is shallowly embedded: pure helpers become Lean
functions over `List Char` / `String`; the SQLite-backed task store
becomes an explicit record of lists mutated by pure update functions;
filesystem and git effects become explicit state passing with an
oracle for merge outcomes.  Timestamps are modelled as `Nat` and the
lists kept in creation order (matching `ORDER BY created_at`).
-/

namespace Blueprint

/-! ## Character-list utilities (Python `str` helpers used by the source) -/

/-- `str.rstrip('/')`: remove every trailing forward slash. -/
def rstripSlashes : List Char → List Char
  | [] => []
  | c :: cs =>
    match rstripSlashes cs with
    | [] => if c == '/' then [] else [c]
    | r => c :: r

/-- `str.replace('\\', '/')` applied character-wise. -/
def replaceBackslash (l : List Char) : List Char :=
  l.map (fun c => if c == '\\' then '/' else c)

/-- `pattern.split('/')[-1]`: the substring after the last slash. -/
def lastSegment (l : List Char) : List Char :=
  (l.reverse.takeWhile (fun c => !(c == '/'))).reverse

/-- `'.' in s` for a character list. -/
def containsDot (l : List Char) : Bool :=
  l.any (fun c => c == '.')

/-- `s.startswith(prefixChars)` on character lists. -/
def startsWithChars : List Char → List Char → Bool
  | [], _ => true
  | _ :: _, [] => false
  | a :: as, b :: bs => a == b && startsWithChars as bs

/-- `needle in hay` (substring containment) on character lists. -/
def containsSub (needle : List Char) : List Char → Bool
  | [] => needle.isEmpty
  | c :: cs => startsWithChars needle (c :: cs) || containsSub needle cs

/-- `s.lower()` applied character-wise. -/
def toLowerChars (l : List Char) : List Char :=
  l.map Char.toLower

/-! ## `fnmatch.fnmatch` (POSIX behaviour: `normcase` is the identity)

The source's `_matches_pattern` delegates glob matching to Python's
`fnmatch`, whose translation sends `*` to `.*` (any characters,
including `/`), `?` to `.` (any single character) and `[...]` to a
character class.  Recursion is bounded by an explicit fuel argument
that is always instantiated large enough to reach a base case. -/

inductive GlobTok where
  | lit (c : Char)
  | anyChar
  | star
  | charSet (neg : Bool) (items : List (Char × Char))
deriving DecidableEq

/-- Split a character list at the first `]`, returning the body before it
and the remainder after it. -/
def findClose : List Char → Option (List Char × List Char)
  | [] => none
  | c :: cs =>
    if c == ']' then some ([], cs)
    else
      match findClose cs with
      | none => none
      | some (body, rest) => some (c :: body, rest)

/-- Parse the body of a bracket expression into closed ranges:
`a-b` becomes the range `(a, b)`, a lone character `c` the range `(c, c)`
(a trailing or leading `-` stays literal, as in `fnmatch.translate`). -/
def parseItems : List Char → List (Char × Char)
  | a :: '-' :: b :: rest => (a, b) :: parseItems rest
  | c :: rest => (c, c) :: parseItems rest
  | [] => []

/-- Parse a bracket expression after the opening `[`: an optional leading
`!` negates, a `]` right after that is a literal member, and a missing
closing `]` makes the whole `[` literal (`none`). -/
def parseCharSet (l : List Char) : Option (Bool × List (Char × Char) × List Char) :=
  let negAndBody : Bool × List Char :=
    match l with
    | '!' :: rest => (true, rest)
    | _ => (false, l)
  match negAndBody.2 with
  | ']' :: l2 =>
    (match findClose l2 with
     | none => none
     | some (body, rest) => some (negAndBody.1, parseItems (']' :: body), rest))
  | l1 =>
    (match findClose l1 with
     | none => none
     | some (body, rest) => some (negAndBody.1, parseItems body, rest))

/-- Membership of a character in a parsed bracket expression. -/
def inCharSet (d : Char) (items : List (Char × Char)) : Bool :=
  items.any (fun r => decide (r.1.toNat ≤ d.toNat ∧ d.toNat ≤ r.2.toNat))

/-- Tokenise a glob pattern (`fnmatch.translate` construct by construct).
The fuel is instantiated to the pattern length plus one; every step
consumes at least one character. -/
def globTokenizeAux : Nat → List Char → List GlobTok
  | 0, _ => []
  | _, [] => []
  | f + 1, '*' :: rest => .star :: globTokenizeAux f rest
  | f + 1, '?' :: rest => .anyChar :: globTokenizeAux f rest
  | f + 1, '[' :: rest =>
    (match parseCharSet rest with
     | some (neg, items, rest2) => .charSet neg items :: globTokenizeAux f rest2
     | none => .lit '[' :: globTokenizeAux f rest)
  | f + 1, c :: rest => .lit c :: globTokenizeAux f rest

def globTokenize (l : List Char) : List GlobTok :=
  globTokenizeAux (l.length + 1) l

/-- Match tokenised glob against a character list.  `star` may swallow any
character, slashes included, exactly as `fnmatch` does.  Every recursive
call shrinks `tokens.length + chars.length`, so fuel
`tokens.length + chars.length + 1` always reaches a base case. -/
def globMatch : Nat → List GlobTok → List Char → Bool
  | 0, _, _ => false
  | _ + 1, [], cs => cs.isEmpty
  | f + 1, .star :: ps, cs =>
    globMatch f ps cs ||
      (match cs with
       | [] => false
       | _ :: cs2 => globMatch f (.star :: ps) cs2)
  | f + 1, .anyChar :: ps, cs =>
    (match cs with
     | [] => false
     | _ :: cs2 => globMatch f ps cs2)
  | f + 1, .lit c :: ps, cs =>
    (match cs with
     | [] => false
     | d :: cs2 => c == d && globMatch f ps cs2)
  | f + 1, .charSet neg items :: ps, cs =>
    (match cs with
     | [] => false
     | d :: cs2 => (neg != inCharSet d items) && globMatch f ps cs2)

/-- `fnmatch.fnmatch(name, pat)` on a case-sensitive filesystem. -/
def fnmatchChars (name pat : List Char) : Bool :=
  let ts := globTokenize pat
  globMatch (ts.length + name.length + 1) ts name

/-! ## The hand-built `**` regex branch of `_matches_pattern`

`pattern.replace('**', '.*').replace('*', '[^/]*').replace('?', '.')`
also rewrites the `*` of the freshly inserted `.*`, so `**` contributes
the regex `.[^/]*` (one arbitrary character, then non-slash characters),
a single `*` contributes `[^/]*`, and `?` and an unescaped `.` both
contribute the regex dot (any character except a newline).  Other regex
metacharacters do not occur in the repository's path patterns and are
modelled as literals. -/

inductive RegTok where
  | rlit (c : Char)
  | rdot
  | rsegStar
deriving DecidableEq

def regexTokensAux : Nat → List Char → List RegTok
  | 0, _ => []
  | _, [] => []
  | f + 1, '*' :: '*' :: rest => .rdot :: .rsegStar :: regexTokensAux f rest
  | f + 1, '*' :: rest => .rsegStar :: regexTokensAux f rest
  | f + 1, '?' :: rest => .rdot :: regexTokensAux f rest
  | f + 1, '.' :: rest => .rdot :: regexTokensAux f rest
  | f + 1, c :: rest => .rlit c :: regexTokensAux f rest

def regexTokens (l : List Char) : List RegTok :=
  regexTokensAux (l.length + 1) l

/-- Anchored match (`re.match` with a trailing `$`) of the mini-regex. -/
def regexMatch : Nat → List RegTok → List Char → Bool
  | 0, _, _ => false
  | _ + 1, [], cs => cs.isEmpty
  | f + 1, .rsegStar :: ps, cs =>
    regexMatch f ps cs ||
      (match cs with
       | [] => false
       | d :: cs2 => !(d == '/') && regexMatch f (.rsegStar :: ps) cs2)
  | f + 1, .rdot :: ps, cs =>
    (match cs with
     | [] => false
     | d :: cs2 => !(d == '\n') && regexMatch f ps cs2)
  | f + 1, .rlit c :: ps, cs =>
    (match cs with
     | [] => false
     | d :: cs2 => c == d && regexMatch f ps cs2)

def regexFull (pat p : List Char) : Bool :=
  let ts := regexTokens pat
  regexMatch (ts.length + p.length + 1) ts p

/-- `'**' in pattern`. -/
def containsStarStar : List Char → Bool
  | '*' :: '*' :: _ => true
  | _ :: rest => containsStarStar rest
  | [] => false

/-! ## `AccessControlManager._matches_pattern` -/

/-- `AccessControlManager._matches_pattern(path, pattern)` from
`src/orchestrator/utils/access_control.py`: normalise the pattern
(backslashes to slashes, strip trailing slashes), strip trailing slashes
from the path, then take the disjunction of the four checks of the
source (the early `return True`s of the Python body): the
directory-pattern check (a pattern whose final segment has no `.`
matches itself and everything below it), `fnmatch` on the pattern, the
same on `pattern + '/*'`, and — when the pattern contains `**` — the
hand-built regex. -/
def matches_patternL (path pattern : List Char) : Bool :=
  let pat := rstripSlashes (replaceBackslash pattern)
  let p := rstripSlashes path
  ((!containsDot (lastSegment pat)) && (p == pat || startsWithChars (pat ++ ['/']) p))
    || fnmatchChars p pat
    || fnmatchChars p (pat ++ ['/', '*'])
    || (containsStarStar pat && regexFull pat p)

def matches_pattern (path pattern : String) : Bool :=
  matches_patternL path.data pattern.data

/-! ## The spec's pattern semantics (for comparison with the source)

Modelled from the spec, §4.2: `*` matches within one path segment only,
`**` matches across segment boundaries, and a pattern whose final
segment has no file-extension-like part matches itself and every
descendant path; matching is case-sensitive. -/

inductive SpecTok where
  | slit (c : Char)
  | sseg
  | sany
deriving DecidableEq

def specTokensAux : Nat → List Char → List SpecTok
  | 0, _ => []
  | _, [] => []
  | f + 1, '*' :: '*' :: rest => .sany :: specTokensAux f rest
  | f + 1, '*' :: rest => .sseg :: specTokensAux f rest
  | f + 1, c :: rest => .slit c :: specTokensAux f rest

/-- Modelled from the spec: `sseg` (`*`) may only swallow non-slash
characters, `sany` (`**`) may swallow anything. -/
def specGlobMatch : Nat → List SpecTok → List Char → Bool
  | 0, _, _ => false
  | _ + 1, [], cs => cs.isEmpty
  | f + 1, .sany :: ps, cs =>
    specGlobMatch f ps cs ||
      (match cs with
       | [] => false
       | _ :: cs2 => specGlobMatch f (.sany :: ps) cs2)
  | f + 1, .sseg :: ps, cs =>
    specGlobMatch f ps cs ||
      (match cs with
       | [] => false
       | d :: cs2 => !(d == '/') && specGlobMatch f (.sseg :: ps) cs2)
  | f + 1, .slit c :: ps, cs =>
    (match cs with
     | [] => false
     | d :: cs2 => c == d && specGlobMatch f ps cs2)

/-- Modelled from the spec, §4.2: the pattern semantics the spec
describes, used only to compare the source's matcher against the
claim's wording. -/
def specMatches (path pattern : List Char) : Bool :=
  let ts := specTokensAux (pattern.length + 1) pattern
  specGlobMatch (ts.length + path.length + 1) ts path
    || ((!containsDot (lastSegment pattern))
          && (path == pattern || startsWithChars (pattern ++ ['/']) path))

/-! ## `AccessControlManager`: path normalisation and the decision function

`pathlib` is modelled lexically: a POSIX path is an `absolute` flag plus
its non-empty, non-`.` segments (`PurePosixPath` already collapses `.`
and duplicate slashes at construction, and keeps `..`).  `Path.resolve`
is the identity here because symlinks are outside the model and `..`
segments have been rejected before resolution, exactly as in
`_normalize_path`. -/

/-- A parsed POSIX path. -/
structure PathP where
  absolute : Bool
  segs : List String
deriving DecidableEq

/-- Split a character list on `/`. -/
def splitOnSlash : List Char → List (List Char)
  | [] => [[]]
  | c :: cs =>
    let r := splitOnSlash cs
    if c == '/' then [] :: r
    else
      match r with
      | [] => [[c]]
      | h :: t => (c :: h) :: t

/-- `pathlib.Path(s)`: keep the non-empty segments other than `.`,
remember whether the path was absolute. -/
def parsePath (s : String) : PathP :=
  let parts := (splitOnSlash s.data).map (fun cs => String.mk cs)
  { absolute := (match s.data with | c :: _ => c == '/' | [] => false)
    segs := parts.filter (fun t => !(t == "") && !(t == ".")) }

/-- Render a `PathP` the way `str(Path(...))` would (enough for reasons
and messages; never fed back into parsing). -/
def pathToString (p : PathP) : String :=
  (if p.absolute then "/" else "") ++ String.intercalate "/" p.segs

/-- `AccessControlManager._normalize_path`: raise `ValueError` when the
input contains a `..` segment (checked on the path's own parts, before
joining with the worktree); otherwise make the path absolute by
prefixing the worktree root and (lexically) resolve it. -/
def normalize_path (worktree : PathP) (file_path : String) : Except String PathP :=
  let p := parsePath file_path
  if p.segs.contains ".." then
    .error ("Path traversal detected: " ++ file_path)
  else if p.absolute then
    .ok p
  else
    .ok { absolute := worktree.absolute, segs := worktree.segs ++ p.segs }

/-- `Path.relative_to(worktree)`: succeeds exactly when the worktree is
a prefix, yielding the remaining segments. -/
def relative_to (p worktree : PathP) : Option (List String) :=
  if p.absolute == worktree.absolute && worktree.segs.isPrefixOf p.segs then
    some (p.segs.drop worktree.segs.length)
  else
    none

/-- `str(relative_path)` with forward slashes (an empty relative path
prints as `.`, as in pathlib). -/
def relStr (rel : List String) : String :=
  if rel.isEmpty then "." else String.intercalate "/" rel

inductive AccessMode where
  | BLOCK
  | LOG
  | ASK
deriving DecidableEq

inductive AccessDecision where
  | ALLOWED
  | DENIED_EXCLUDED
  | DENIED_NOT_IN_ALLOW
  | DENIED_PATH_TRAVERSAL
  | DENIED_CONFLICT
deriving DecidableEq

/-- The Python enum's `.name`, used in the `AccessViolation` message. -/
def decisionName : AccessDecision → String
  | .ALLOWED => "ALLOWED"
  | .DENIED_EXCLUDED => "DENIED_EXCLUDED"
  | .DENIED_NOT_IN_ALLOW => "DENIED_NOT_IN_ALLOW"
  | .DENIED_PATH_TRAVERSAL => "DENIED_PATH_TRAVERSAL"
  | .DENIED_CONFLICT => "DENIED_CONFLICT"

/-- `AccessControlManager.__init__` state: allow patterns, exclude
patterns, worktree root and enforcement mode. -/
structure AccessControlManager where
  allow_patterns : List String
  exclude_patterns : List String
  worktree_path : PathP
  mode : AccessMode
deriving DecidableEq

/-- `self.allow_all`: no allow patterns means allow everything unless
excluded. -/
def allow_all (m : AccessControlManager) : Bool :=
  m.allow_patterns.isEmpty

/-- `AccessControlManager._is_excluded` (the `str(relative_path)` has
forward slashes already in this model, so the `replace` is a no-op). -/
def is_excluded (m : AccessControlManager) (path_str : String) : Bool :=
  m.exclude_patterns.any (fun pat => matches_pattern path_str pat)

/-- `AccessControlManager._is_allowed`. -/
def is_allowed (m : AccessControlManager) (path_str : String) : Bool :=
  m.allow_patterns.any (fun pat => matches_pattern path_str pat)

/-- The decision part of `validate_file_access`, before `_handle_decision`
applies the enforcement mode: normalise, re-relativise, check exclusions
first, then the allow list (empty allow list means allow). -/
def accessDecision (m : AccessControlManager) (file_path : String) :
    AccessDecision × String :=
  match normalize_path m.worktree_path file_path with
  | .error e => (.DENIED_PATH_TRAVERSAL, "Path traversal detected: " ++ e)
  | .ok np =>
    match relative_to np m.worktree_path with
    | none => (.DENIED_PATH_TRAVERSAL, "Path outside worktree: " ++ pathToString np)
    | some rel =>
      let rs := relStr rel
      if is_excluded m rs then
        (.DENIED_EXCLUDED, "Path matches exclusion pattern")
      else if allow_all m || is_allowed m rs then
        (.ALLOWED, "Access granted")
      else
        (.DENIED_NOT_IN_ALLOW, "Path not in allow list")

/-- An apostrophe, kept out of source literals. -/
def quoteChar : Char := Char.ofNat 39

/-- The `AccessViolation` message raised in `BLOCK` mode. -/
def violationMessage (d : AccessDecision) (r file_path operation : String) : String :=
  "Access " ++ decisionName d ++ " for " ++ operation ++ " on "
    ++ String.singleton quoteChar ++ file_path ++ String.singleton quoteChar
    ++ ": " ++ r

/-- `AccessControlManager._handle_decision`: a non-allowed decision
raises `AccessViolation` in `BLOCK` mode and is returned unchanged in
`LOG` and `ASK` modes; the `(decision, reason)` pair is returned
otherwise. -/
def handle_decision (m : AccessControlManager) (d : AccessDecision)
    (r file_path operation : String) :
    Except String (AccessDecision × String) :=
  if !(d == .ALLOWED) && m.mode == .BLOCK then
    .error (violationMessage d r file_path operation)
  else
    .ok (d, r)

/-- `AccessControlManager.validate_file_access`, with `raise` modelled
as `Except.error`.  The operation string is only used for messages. -/
def validate_file_access (m : AccessControlManager)
    (file_path operation : String) :
    Except String (AccessDecision × String) :=
  match normalize_path m.worktree_path file_path with
  | .error e =>
    handle_decision m .DENIED_PATH_TRAVERSAL
      ("Path traversal detected: " ++ e) file_path operation
  | .ok np =>
    match relative_to np m.worktree_path with
    | none =>
      handle_decision m .DENIED_PATH_TRAVERSAL
        ("Path outside worktree: " ++ pathToString np) file_path operation
    | some rel =>
      let rs := relStr rel
      if is_excluded m rs then
        handle_decision m .DENIED_EXCLUDED
          "Path matches exclusion pattern" file_path operation
      else if allow_all m || is_allowed m rs then
        .ok (.ALLOWED, "Access granted")
      else
        handle_decision m .DENIED_NOT_IN_ALLOW
          "Path not in allow list" file_path operation

/-- `Except.isOk` as a plain Bool (for closed witness statements). -/
def exceptIsOk {ε α : Type} : Except ε α → Bool
  | .ok _ => true
  | .error _ => false

/-! ## Task store (`src/orchestrator/db.py`)

The SQLite tables become lists kept in creation order, so the
`ORDER BY created_at` of the queries is the stored order; validations
additionally carry a numeric `createdAt` because
`check_task_ready_for_merge` re-sorts them descending.  The
`updated_at` / `completed_at` bookkeeping columns are not modelled (no
claim mentions them). -/

inductive TaskStatus where
  | CAHIER_READY
  | SPEC_READY
  | DISPATCHED
  | SPECIALIST_WORKING
  | CODE_DONE
  | VALIDATION_PENDING
  | VALIDATION_FAILED
  | VALIDATION_PASSED
  | MERGE_CONFLICT
  | MERGED
  | FAILED
deriving DecidableEq

/-- A row of the `validations` table.  `status` is the stored string
(`pending`, `go` or `no_go`), `details` the opaque JSON payload. -/
structure ValidationRec where
  validationId : Nat
  taskId : String
  validatorType : String
  status : String
  message : Option String
  details : Option String
  createdAt : Nat
deriving DecidableEq

/-- One issue of the structured retry feedback
(`RetryHandler._build_feedback`). -/
structure FeedbackIssue where
  validatorType : String
  message : Option String
  timestamp : Nat
  details : Option String
deriving DecidableEq

/-- The structured feedback persisted by the retry handler (stored as a
JSON string in the source; kept structured here). -/
structure Feedback where
  taskId : String
  retryReason : String
  issues : List FeedbackIssue
  summary : String
deriving DecidableEq

/-- A row of the `tasks` table. -/
structure Task where
  taskId : String
  domain : String
  title : String
  specPath : String
  branchName : Option String
  worktreePath : Option String
  status : TaskStatus
  dependencies : Option (List String)
  retryCount : Nat
  lastFeedback : Option Feedback
deriving DecidableEq

/-- A row of the `agents` table (the fields the dispatcher touches). -/
structure AgentRec where
  agentId : String
  taskId : String
  role : String
  templateName : String
  status : String
  result : Option String
deriving DecidableEq

/-- The task store.  Lists are kept in creation order. -/
structure DB where
  tasks : List Task
  validations : List ValidationRec
  agents : List AgentRec
deriving DecidableEq

/-- `UPDATE tasks SET ... WHERE task_id = ?`: apply `g` to every row
whose id matches (ids are unique in any well-formed store, but the SQL
touches all matches). -/
def updateTaskRow (tid : String) (g : Task → Task) (db : DB) : DB :=
  { db with tasks := db.tasks.map (fun t => if t.taskId == tid then g t else t) }

/-- `Database.get_task`. -/
def get_task (db : DB) (tid : String) : Option Task :=
  db.tasks.find? (fun t => t.taskId == tid)

/-- `Database.get_tasks_by_status` (`ORDER BY created_at` is the stored
order). -/
def get_tasks_by_status (db : DB) (st : TaskStatus) : List Task :=
  db.tasks.filter (fun t => t.status == st)

/-- `Database.update_task_status`: sets the status column
unconditionally — there is no edge check in the source. -/
def update_task_status (db : DB) (tid : String) (st : TaskStatus) : DB :=
  updateTaskRow tid (fun t => { t with status := st }) db

/-- `Database.set_task_branch`. -/
def set_task_branch (db : DB) (tid branch worktree : String) : DB :=
  updateTaskRow tid
    (fun t => { t with branchName := some branch, worktreePath := some worktree }) db

/-- `Database.mark_task_completed`. -/
def mark_task_completed (db : DB) (tid : String) : DB :=
  update_task_status db tid .MERGED

/-- `Database.increment_retry`: `retry_count + 1` and store the
feedback. -/
def increment_retry (db : DB) (tid : String) (fb : Feedback) : DB :=
  updateTaskRow tid
    (fun t => { t with retryCount := t.retryCount + 1, lastFeedback := some fb }) db

/-- `Database.get_retry_count` (0 when the task does not exist). -/
def get_retry_count (db : DB) (tid : String) : Nat :=
  match get_task db tid with
  | some t => t.retryCount
  | none => 0

/-- `Database.get_validations_for_task` (`ORDER BY created_at` is the
stored order). -/
def get_validations_for_task (db : DB) (tid : String) : List ValidationRec :=
  db.validations.filter (fun v => v.taskId == tid)

/-- Insertion step for sorting validations by `created_at DESC`
(`check_task_ready_for_merge`). -/
def insertByCreatedDesc (v : ValidationRec) : List ValidationRec → List ValidationRec
  | [] => [v]
  | w :: ws =>
    if w.createdAt ≤ v.createdAt then v :: w :: ws
    else w :: insertByCreatedDesc v ws

def sortByCreatedDesc (l : List ValidationRec) : List ValidationRec :=
  l.foldr insertByCreatedDesc []

/-- Python dict assignment `m[k] = v` on an association list: overwrite
an existing binding, else append. -/
def assocSet : List (String × String) → String → String → List (String × String)
  | [], k, v => [(k, v)]
  | (k0, v0) :: rest, k, v =>
    if k0 == k then (k0, v) :: rest else (k0, v0) :: assocSet rest k v

def assocGet (l : List (String × String)) (k : String) : Option String :=
  (l.find? (fun kv => kv.1 == k)).map (fun kv => kv.2)

/-- `Database.check_task_ready_for_merge`: select the `logic`/`tech`
validations of the task ordered `created_at DESC`, require at least two
rows, then build a Python dict keyed by validator type — later rows
overwrite earlier ones, so for each type the dict ends up holding the
status of the LAST row in descending order, i.e. the OLDEST record —
and test both entries for `go`. -/
def check_task_ready_for_merge (db : DB) (tid : String) : Bool :=
  let rows := sortByCreatedDesc
    (db.validations.filter
      (fun v => v.taskId == tid
        && (v.validatorType == "logic" || v.validatorType == "tech")))
  if rows.length < 2 then false
  else
    let dict := rows.foldl (fun m r => assocSet m r.validatorType r.status) []
    (assocGet dict "logic" == some "go") && (assocGet dict "tech" == some "go")

/-- Modelled from the spec, §3/§4.6: the most recent validation record
of the given validator type for the task. -/
def mostRecentValidation (db : DB) (tid ty : String) : Option ValidationRec :=
  (db.validations.filter (fun v => v.taskId == tid && v.validatorType == ty)).foldl
    (fun acc v =>
      match acc with
      | none => some v
      | some w => if w.createdAt ≤ v.createdAt then some v else some w)
    none

/-- Modelled from the spec, §4.6 gate: merge-eligible iff the most
recent `logic` and the most recent `tech` validation are both `go`.
Used only to compare the source's check against the spec's wording. -/
def specReadyForMerge (db : DB) (tid : String) : Bool :=
  (match mostRecentValidation db tid "logic" with
   | some v => v.status == "go"
   | none => false)
  && (match mostRecentValidation db tid "tech" with
      | some v => v.status == "go"
      | none => false)

/-- Modelled from the spec, §4.1: the allowed edges of the task state
graph (the spec's `WORKING` is the source's `SPECIALIST_WORKING`;
re-entry from `MERGE_CONFLICT` goes back to a merge attempt only).
Used only to compare the store's behaviour against the spec's wording. -/
def specAllowedEdge : TaskStatus → TaskStatus → Bool
  | .SPEC_READY, .DISPATCHED => true
  | .DISPATCHED, .SPECIALIST_WORKING => true
  | .SPECIALIST_WORKING, .CODE_DONE => true
  | .CODE_DONE, .VALIDATION_PENDING => true
  | .VALIDATION_PENDING, .VALIDATION_PASSED => true
  | .VALIDATION_PENDING, .VALIDATION_FAILED => true
  | .VALIDATION_FAILED, .CODE_DONE => true
  | .VALIDATION_FAILED, .FAILED => true
  | .VALIDATION_PASSED, .MERGED => true
  | .VALIDATION_PASSED, .MERGE_CONFLICT => true
  | .MERGE_CONFLICT, .MERGED => true
  | _, _ => false

/-! ## Retry handler (`src/orchestrator/phases/retry_handler.py`) -/

/-- `RetryHandler._generate_feedback_summary`. -/
def feedbackSummary (issues : List FeedbackIssue) : String :=
  let logicIssues := issues.filter (fun i => i.validatorType == "logic")
  let techIssues := issues.filter (fun i => i.validatorType == "tech")
  let parts : List String :=
    (if logicIssues.isEmpty then []
     else ["Logic validation failed: " ++ toString logicIssues.length
            ++ " requirement(s) not met"])
    ++ (if techIssues.isEmpty then []
        else ["Technical validation failed: " ++ toString techIssues.length
               ++ " test(s) failed"])
  if parts.isEmpty then "Unknown validation failure"
  else String.intercalate ". " parts

/-- `RetryHandler._build_feedback`: one issue per `no_go` validation
record, in stored order; the `details` JSON is carried through opaquely
(the source drops it only when it fails to re-parse, which a stored
record cannot). -/
def build_feedback (tid : String) (vs : List ValidationRec) : Feedback :=
  let issues := (vs.filter (fun v => v.status == "no_go")).map
    (fun v => FeedbackIssue.mk v.validatorType v.message v.createdAt v.details)
  { taskId := tid
    retryReason := "validation_failed"
    issues := issues
    summary := feedbackSummary issues }

/-- The body of the `for task in failed_tasks` loop of
`RetryHandler.process_failed_tasks`: re-read the retry count; at or
above the cap mark the task `FAILED`; below the cap skip the task
when it has no validation records, otherwise build the feedback,
increment the retry counter (persisting the feedback) and reset the
status to `CODE_DONE`. -/
def retryStep (maxRetries : Nat) (db : DB) (tid : String) : DB :=
  let cur := get_retry_count db tid
  if maxRetries ≤ cur then
    update_task_status db tid .FAILED
  else
    let vs := get_validations_for_task db tid
    if vs.isEmpty then db
    else
      let fb := build_feedback tid vs
      let db1 := increment_retry db tid fb
      update_task_status db1 tid .CODE_DONE

/-- `RetryHandler.process_failed_tasks`: nothing happens when the retry
loop is disabled; otherwise the tasks currently in `VALIDATION_FAILED`
are read once and processed in order (the returned retry counter is
only logged and is not modelled). -/
def process_failed_tasks (maxRetries : Nat) (enableRetry : Bool) (db : DB) : DB :=
  if !enableRetry then db
  else
    (get_tasks_by_status db .VALIDATION_FAILED).foldl
      (fun d t => retryStep maxRetries d t.taskId) db

/-! ## Git helper (`src/orchestrator/utils/git_helper.py`)

The repository is abstracted to the state the claims observe: its
branches, its worktrees, the checked-out branch and the set of files
currently in a conflicted merge (`git status --porcelain` `UU` lines;
empty means clean).  Whether a given merge succeeds depends on file
contents, which are outside the model, so it is supplied as an oracle
`String → String → MergeOutcome` (branch, target). -/

structure RepoState where
  repoPath : String
  branches : List String
  worktrees : List String
  currentBranch : String
  conflictFiles : List String
deriving DecidableEq

inductive MergeOutcome where
  | success
  | conflict (files : List String)
deriving DecidableEq

/-- `GitHelper.get_merge_conflicts`: the files with conflict status in
`git status --porcelain`. -/
def get_merge_conflicts (repo : RepoState) : List String :=
  repo.conflictFiles

/-- The message `merge_branch` builds on conflict (note the placeholder
list: after the abort `get_merge_conflicts` is empty, and the source
substitutes a fixed string instead of parsing the git error). -/
def conflictMessage (conflicts : List String) : String :=
  "Merge conflicts detected. Merge aborted to keep repository clean.\nConflicting files:\n"
    ++ String.intercalate "\n" (conflicts.map (fun f => "  - " ++ f))

/-- `GitHelper.merge_branch`: check out the target, pull (a no-op
here), attempt the merge.  A conflicting merge raises; the handler
aborts the merge immediately (restoring a clean tree), then asks git
for the conflicting files — which, post-abort, is the empty list — and
falls back to a placeholder entry.  Returns `(success, error message)`
plus the resulting repository state. -/
def merge_branch (oracle : String → String → MergeOutcome)
    (repo : RepoState) (branch target : String) :
    (Bool × Option String) × RepoState :=
  let repo1 := { repo with currentBranch := target }
  match oracle branch target with
  | .success => ((true, none), repo1)
  | .conflict files =>
    let repoConflicted := { repo1 with conflictFiles := files }
    let repoAborted := { repoConflicted with conflictFiles := [] }
    let conflicts := get_merge_conflicts repoAborted
    let conflicts :=
      if conflicts.isEmpty then ["Check git log for conflict details"] else conflicts
    ((false, some (conflictMessage conflicts)), repoAborted)

/-- `GitHelper.cleanup_merged_branch`: force-remove the worktree and
delete the branch. -/
def cleanup_merged_branch (repo : RepoState) (tid branch : String) : RepoState :=
  { repo with
      worktrees := repo.worktrees.filter (fun w => !(w == tid))
      branches := repo.branches.filter (fun b => !(b == branch)) }

/-! ## Merger agent (`src/orchestrator/phases/phase4_merger.py`) -/

/-- The conflict report persisted by `MergerAgent._create_conflict_report`
(the timestamp is not modelled). -/
structure ConflictReport where
  taskId : String
  title : String
  domain : String
  branchName : String
  worktreePath : Option String
  targetBranch : String
  errorMessage : String
  conflictingFiles : List String
  resolutionInstructions : List String
deriving DecidableEq

structure MergerConfig where
  targetBranch : String
  cleanupAfterMerge : Bool
deriving DecidableEq

/-- The pipeline state the merger acts on: the task store, the
repository and the persisted conflict reports
(`conflict_reports/<task>_conflict.json` files). -/
structure MergerState where
  db : DB
  repo : RepoState
  reports : List ConflictReport
deriving DecidableEq

/-- `MergerAgent._create_conflict_report`, evaluated in the post-merge
repository state: `conflicting_files` is `get_merge_conflicts()` at
report time. -/
def create_conflict_report (cfg : MergerConfig) (repo : RepoState)
    (tid : String) (task : Task) (branch errMsg : String) : ConflictReport :=
  { taskId := tid
    title := task.title
    domain := task.domain
    branchName := branch
    worktreePath := task.worktreePath
    targetBranch := cfg.targetBranch
    errorMessage := errMsg
    conflictingFiles := get_merge_conflicts repo
    resolutionInstructions :=
      [ "1. Navigate to the repository: " ++ repo.repoPath
      , "2. Checkout the feature branch: git checkout " ++ branch
      , "3. Rebase on " ++ cfg.targetBranch ++ ": git rebase " ++ cfg.targetBranch
      , "4. Resolve conflicts manually in each file"
      , "5. Stage resolved files: git add <file>"
      , "6. Continue rebase: git rebase --continue"
      , "7. Force push: git push --force-with-lease origin " ++ branch
      , "8. Re-run phase 5 to attempt merge again" ] }

/-- `"conflict" in error_msg.lower()`. -/
def mentionsConflict (msg : String) : Bool :=
  containsSub "conflict".data (toLowerChars msg.data)

/-- `MergerAgent.merge_task` (the `skip_validation` parameter exists in
the source but is never read by the body): look the task up, gate on
`check_task_ready_for_merge`, attempt the merge.  On a conflict, mark
the task `MERGE_CONFLICT` and persist a conflict report; on success,
optionally clean up the branch and worktree and mark the task
`MERGED`.  A task without a stored branch name would make the git call
fail, modelled as a plain failure. -/
def merge_task (oracle : String → String → MergeOutcome) (cfg : MergerConfig)
    (st : MergerState) (tid : String) (_skipValidation : Bool := false) :
    Bool × MergerState :=
  match get_task st.db tid with
  | none => (false, st)
  | some task =>
    if !check_task_ready_for_merge st.db tid then (false, st)
    else
      match task.branchName with
      | none => (false, st)
      | some branch =>
        let r := merge_branch oracle st.repo branch cfg.targetBranch
        let repo1 := r.2
        match r.1 with
        | (true, _) =>
          let repo2 :=
            if cfg.cleanupAfterMerge then cleanup_merged_branch repo1 tid branch
            else repo1
          let db1 := mark_task_completed st.db tid
          (true, { db := db1, repo := repo2, reports := st.reports })
        | (false, errMsg) =>
          let msg := errMsg.getD ""
          if mentionsConflict msg then
            let db1 := update_task_status st.db tid .MERGE_CONFLICT
            let report := create_conflict_report cfg repo1 tid task branch msg
            (false, { db := db1, repo := repo1, reports := st.reports ++ [report] })
          else
            (false, { db := st.db, repo := repo1, reports := st.reports })

/-! ## Dispatcher (`src/orchestrator/phases/phase2_dispatcher.py`)

Prompt construction and the spec documents feeding it are content
producers the spec externalises (§1, §6); they enter the model as an
environment: a spec lookup keyed by the task's `spec_path`, a template
lookup per role, and an opaque prompt builder. -/

structure SpecDoc where
  domain : Option String
deriving DecidableEq

structure DispatchEnv where
  specs : String → Option SpecDoc
  templateForRole : String → Option String
  agentPrompt : String → String → String

structure DispatchConfig where
  checkDependencies : Bool
  baseBranch : String
deriving DecidableEq

/-- `Dispatcher._check_dependencies`: no stored dependency list (or a
malformed one, which the source also lets pass) means no dependencies;
otherwise every listed id must exist and be `MERGED`. -/
def check_dependencies (db : DB) (task : Task) : Bool :=
  match task.dependencies with
  | none => true
  | some deps =>
    if deps.isEmpty then true
    else
      deps.all (fun d =>
        match get_task db d with
        | none => false
        | some dt => dt.status == .MERGED)

/-- `Database.create_agent` followed by the
`update_agent_status(..., CREATED, result=truncated prompt)` the
dispatcher performs right after. -/
def create_agent_with_prompt (db : DB) (rec : AgentRec) : DB :=
  { db with agents := db.agents ++ [rec] }

/-- `Dispatcher._create_agent_trio`: one coder, verifier and tester per
task; a missing template for any role fails the dispatch (agents
created so far remain). -/
def create_agent_trio (env : DispatchEnv) (db : DB) (tid : String) :
    List String → Bool × DB
  | [] => (true, db)
  | role :: rest =>
    match env.templateForRole role with
    | none => (false, db)
    | some tmpl =>
      let prompt := (env.agentPrompt tmpl role).take 500
      let db1 := create_agent_with_prompt db
        { agentId := role.capitalize ++ "-" ++ tid
          taskId := tid
          role := role
          templateName := tmpl
          status := "created"
          result := some prompt }
      create_agent_trio env db1 tid rest

/-- `GitHelper.create_worktree` as seen by the dispatcher: branch
`feature/<id>`, worktree `.worktrees/<id>`, base branch checked out
first; an existing branch is reused (idempotent). -/
def create_worktree (repo : RepoState) (tid base : String) :
    (String × String) × RepoState :=
  let branch := "feature/" ++ tid
  let wpath := ".worktrees/" ++ tid
  let repo1 :=
    { repo with
        currentBranch := base
        branches := if repo.branches.contains branch then repo.branches
                    else repo.branches ++ [branch]
        worktrees := if repo.worktrees.contains tid then repo.worktrees
                     else repo.worktrees ++ [tid] }
  ((branch, wpath), repo1)

/-- `Dispatcher.dispatch_task`: missing task fails; with dependency
checking enabled (`phase2.check_dependencies`, default true) an unmet
dependency skips the task before any mutation; otherwise create the
worktree, persist the branch binding, load the spec, create the agent
trio and finally advance the status to `DISPATCHED`. -/
def dispatch_task (env : DispatchEnv) (cfg : DispatchConfig)
    (db : DB) (repo : RepoState) (tid : String) : Bool × DB × RepoState :=
  match get_task db tid with
  | none => (false, db, repo)
  | some task =>
    if cfg.checkDependencies && !check_dependencies db task then
      (false, db, repo)
    else
      let wr := create_worktree repo tid cfg.baseBranch
      let branch := wr.1.1
      let wpath := wr.1.2
      let repo1 := wr.2
      let db1 := set_task_branch db tid branch wpath
      match env.specs task.specPath with
      | none => (false, db1, repo1)
      | some _spec =>
        match create_agent_trio env db1 tid ["coder", "verifier", "tester"] with
        | (false, db2) => (false, db2, repo1)
        | (true, db2) =>
          let db3 := update_task_status db2 tid .DISPATCHED
          (true, db3, repo1)

/-! ## Concrete stores and configurations used by the closed theorems -/

def baseTask : Task :=
  { taskId := "T1"
    domain := "core"
    title := "Task one"
    specPath := "specs/T1.json"
    branchName := none
    worktreePath := none
    status := .SPEC_READY
    dependencies := none
    retryCount := 0
    lastFeedback := none }

/-- Validation history: a failed logic check, then a passing logic
re-check, then a passing tech check (strictly increasing timestamps). -/
def dbMergeGateA : DB :=
  { tasks := [{ baseTask with status := .VALIDATION_PENDING }]
    validations :=
      [ ⟨1, "T1", "logic", "no_go", some "missing requirement", none, 1⟩
      , ⟨2, "T1", "logic", "go", none, none, 2⟩
      , ⟨3, "T1", "tech", "go", none, none, 3⟩ ]
    agents := [] }

/-- Validation history: a passing logic check, then a failing logic
re-check, then a passing tech check. -/
def dbMergeGateB : DB :=
  { tasks := [{ baseTask with status := .VALIDATION_PENDING }]
    validations :=
      [ ⟨1, "T1", "logic", "go", none, none, 1⟩
      , ⟨2, "T1", "logic", "no_go", some "regression", none, 2⟩
      , ⟨3, "T1", "tech", "go", none, none, 3⟩ ]
    agents := [] }

def taskMerged : Task := { baseTask with status := .MERGED }

def dbStatusCex : DB := { tasks := [taskMerged], validations := [], agents := [] }

def taskSpecReady : Task := baseTask

def dbStatusW : DB := { tasks := [taskSpecReady], validations := [], agents := [] }

/-- Scenario-B policy: allow `src/auth/**`, exclude
`src/auth/secrets.py`, worktree `/w`. -/
def mgrScenB : AccessControlManager :=
  { allow_patterns := ["src/auth/**"]
    exclude_patterns := ["src/auth/secrets.py"]
    worktree_path := { absolute := true, segs := ["w"] }
    mode := .LOG }

def mgrTraversal : AccessControlManager :=
  { allow_patterns := ["src/**"]
    exclude_patterns := []
    worktree_path := { absolute := true, segs := ["w"] }
    mode := .BLOCK }

def mgrBlock : AccessControlManager :=
  { allow_patterns := []
    exclude_patterns := ["secrets.txt"]
    worktree_path := { absolute := true, segs := ["w"] }
    mode := .BLOCK }

def taskRetryW : Task := { baseTask with status := .VALIDATION_FAILED }

/-- One `no_go` validation on record, retry counter still zero. -/
def dbRetryW : DB :=
  { tasks := [taskRetryW]
    validations := [⟨1, "T1", "logic", "no_go", some "bad", none, 1⟩]
    agents := [] }

/-- A `VALIDATION_FAILED` task with NO validation records at all. -/
def dbRetryNoVal : DB :=
  { tasks := [taskRetryW], validations := [], agents := [] }

def taskRetryCap : Task := { baseTask with status := .VALIDATION_FAILED, retryCount := 3 }

def dbRetryCap : DB :=
  { tasks := [taskRetryCap], validations := [], agents := [] }

def taskMergeReady : Task :=
  { baseTask with
      status := .VALIDATION_PASSED
      branchName := some "feature/T1"
      worktreePath := some ".worktrees/T1" }

def dbMergeReady : DB :=
  { tasks := [taskMergeReady]
    validations :=
      [ ⟨1, "T1", "logic", "go", none, none, 1⟩
      , ⟨2, "T1", "tech", "go", none, none, 2⟩ ]
    agents := [] }

def repoMerge : RepoState :=
  { repoPath := "/repo"
    branches := ["main", "feature/T1"]
    worktrees := ["T1"]
    currentBranch := "main"
    conflictFiles := [] }

/-- Merging `feature/T1` into `main` conflicts on `a.py`; everything
else merges cleanly. -/
def oracleConflict : String → String → MergeOutcome :=
  fun b t => if b == "feature/T1" && t == "main" then .conflict ["a.py"] else .success

def cfgMerger : MergerConfig := { targetBranch := "main", cleanupAfterMerge := true }

def stMerge : MergerState := { db := dbMergeReady, repo := repoMerge, reports := [] }

def taskDep1 : Task := { baseTask with dependencies := some ["T2"] }

def taskDep2 : Task :=
  { baseTask with
      taskId := "T2"
      title := "Task two"
      specPath := "specs/T2.json"
      status := .CODE_DONE }

def dbDispatch : DB := { tasks := [taskDep1, taskDep2], validations := [], agents := [] }

def repoDispatch : RepoState :=
  { repoPath := "/repo"
    branches := ["main"]
    worktrees := []
    currentBranch := "main"
    conflictFiles := [] }

def envDispatch : DispatchEnv :=
  { specs := fun _ => some { domain := some "core" }
    templateForRole := fun _ => some "general-purpose"
    agentPrompt := fun _ _ => "" }

def cfgDispatchOn : DispatchConfig := { checkDependencies := true, baseBranch := "main" }

def cfgDispatchOff : DispatchConfig := { checkDependencies := false, baseBranch := "main" }

/-! ## Helper lemmas: row updates and lookups in the task store -/

theorem comp_update_row (tid z : String) (g : Task → Task)
    (hg : ∀ t, (g t).taskId = t.taskId) :
    ((fun t => t.taskId == z) ∘ (fun t => if t.taskId == tid then g t else t))
      = (fun t : Task => t.taskId == z) := by
  funext t
  by_cases h : t.taskId = tid <;> simp [h, hg]

theorem find?_update_ne (l : List Task) (tid z : String) (g : Task → Task)
    (hg : ∀ t, (g t).taskId = t.taskId) (hz : z ≠ tid) :
    (l.map (fun t => if t.taskId == tid then g t else t)).find? (fun t => t.taskId == z)
      = l.find? (fun t => t.taskId == z) := by
  rw [List.find?_map, comp_update_row tid z g hg]
  cases hf : l.find? (fun t => t.taskId == z) with
  | none => rfl
  | some t0 =>
    have ht0 := List.find?_some hf
    simp only [beq_iff_eq] at ht0
    have htne : (t0.taskId == tid) = false :=
      beq_eq_false_iff_ne.mpr (by rw [ht0]; exact hz)
    have hfa : (if t0.taskId == tid then g t0 else t0) = t0 :=
      if_neg (by rw [htne]; exact Bool.false_ne_true)
    exact congrArg some hfa

theorem find?_update_eq (l : List Task) (tid : String) (g : Task → Task)
    (hg : ∀ t, (g t).taskId = t.taskId) :
    (l.map (fun t => if t.taskId == tid then g t else t)).find? (fun t => t.taskId == tid)
      = (l.find? (fun t => t.taskId == tid)).map g := by
  rw [List.find?_map, comp_update_row tid tid g hg]
  cases hf : l.find? (fun t => t.taskId == tid) with
  | none => rfl
  | some t0 =>
    have ht0 := List.find?_some hf
    simp only [beq_iff_eq] at ht0
    simp [ht0]

theorem get_task_updateTaskRow (db : DB) (tid z : String) (g : Task → Task)
    (hg : ∀ t, (g t).taskId = t.taskId) :
    get_task (updateTaskRow tid g db) z
      = if z = tid then (get_task db tid).map g else get_task db z := by
  unfold get_task updateTaskRow
  by_cases hz : z = tid
  · subst hz
    simp only [if_pos rfl]
    exact find?_update_eq db.tasks z g hg
  · simp only [if_neg hz]
    exact find?_update_ne db.tasks tid z g hg hz

theorem get_task_update_task_status (db : DB) (tid z : String) (st : TaskStatus) :
    get_task (update_task_status db tid st) z
      = if z = tid then (get_task db tid).map (fun t => { t with status := st })
        else get_task db z :=
  get_task_updateTaskRow db tid z _ (fun _ => rfl)

theorem get_task_increment_retry (db : DB) (tid z : String) (fb : Feedback) :
    get_task (increment_retry db tid fb) z
      = if z = tid then
          (get_task db tid).map
            (fun t => { t with retryCount := t.retryCount + 1, lastFeedback := some fb })
        else get_task db z :=
  get_task_updateTaskRow db tid z _ (fun _ => rfl)

theorem validations_updateTaskRow (db : DB) (tid : String) (g : Task → Task) :
    (updateTaskRow tid g db).validations = db.validations := rfl

theorem ids_updateTaskRow (db : DB) (tid : String) (g : Task → Task)
    (hg : ∀ t, (g t).taskId = t.taskId) :
    (updateTaskRow tid g db).tasks.map Task.taskId = db.tasks.map Task.taskId := by
  unfold updateTaskRow
  simp only [List.map_map]
  refine List.map_congr_left ?_
  intro t _
  by_cases h : t.taskId = tid <;> simp [h, hg]

theorem validations_retryStep (m : Nat) (db : DB) (tid : String) :
    (retryStep m db tid).validations = db.validations := by
  simp only [retryStep]
  split
  · rfl
  · split
    · rfl
    · rfl

theorem ids_retryStep (m : Nat) (db : DB) (tid : String) :
    (retryStep m db tid).tasks.map Task.taskId = db.tasks.map Task.taskId := by
  simp only [retryStep]
  split
  · exact ids_updateTaskRow db tid _ (fun _ => rfl)
  · split
    · rfl
    · have h1 := ids_updateTaskRow
        (increment_retry db tid (build_feedback tid (get_validations_for_task db tid))) tid
        (fun t => { t with status := TaskStatus.CODE_DONE }) (fun _ => rfl)
      have h2 := ids_updateTaskRow db tid
        (fun t => { t with
            retryCount := t.retryCount + 1
            lastFeedback := some (build_feedback tid (get_validations_for_task db tid)) })
        (fun _ => rfl)
      exact h1.trans h2

theorem get_task_retryStep_ne (m : Nat) (db : DB) (tid z : String) (hz : z ≠ tid) :
    get_task (retryStep m db tid) z = get_task db z := by
  simp only [retryStep]
  split
  · rw [get_task_update_task_status, if_neg hz]
  · split
    · rfl
    · rw [get_task_update_task_status, if_neg hz, get_task_increment_retry, if_neg hz]

theorem fold_retry_frame (m : Nat) (l : List Task) (db : DB) (z : String)
    (h : ∀ u ∈ l, u.taskId ≠ z) :
    get_task (l.foldl (fun d u => retryStep m d u.taskId) db) z = get_task db z := by
  induction l generalizing db with
  | nil => rfl
  | cons a l ih =>
    simp only [List.foldl_cons]
    rw [ih _ (fun u hu => h u (List.mem_cons_of_mem a hu))]
    exact get_task_retryStep_ne m db a.taskId z (Ne.symm (h a (List.mem_cons_self a l)))

theorem fold_retry_validations (m : Nat) (l : List Task) (db : DB) :
    (l.foldl (fun d u => retryStep m d u.taskId) db).validations = db.validations := by
  induction l generalizing db with
  | nil => rfl
  | cons a l ih =>
    simp only [List.foldl_cons]
    rw [ih, validations_retryStep]

theorem fold_retry_ids (m : Nat) (l : List Task) (db : DB) :
    (l.foldl (fun d u => retryStep m d u.taskId) db).tasks.map Task.taskId
      = db.tasks.map Task.taskId := by
  induction l generalizing db with
  | nil => rfl
  | cons a l ih =>
    simp only [List.foldl_cons]
    rw [ih, ids_retryStep]

theorem find?_of_mem_nodup (l : List Task) (t : Task)
    (hnd : (l.map Task.taskId).Nodup) (hm : t ∈ l) :
    l.find? (fun u => u.taskId == t.taskId) = some t := by
  induction l with
  | nil => cases hm
  | cons a l ih =>
    have hnd' := hnd
    simp only [List.map_cons, List.nodup_cons] at hnd'
    rcases List.mem_cons.mp hm with h | h
    · subst h
      exact List.find?_cons_of_pos _ (by simp)
    · have hne : ¬((a.taskId == t.taskId) = true) := by
        simp only [beq_iff_eq]
        intro he
        exact hnd'.1 (he ▸ List.mem_map_of_mem Task.taskId h)
      rw [show List.find? (fun u => u.taskId == t.taskId) (a :: l)
            = List.find? (fun u => u.taskId == t.taskId) l
          from List.find?_cons_of_neg _ hne]
      exact ih hnd'.2 h

theorem get_task_of_mem_nodup (db : DB) (t : Task)
    (hnd : (db.tasks.map Task.taskId).Nodup) (hm : t ∈ db.tasks) :
    get_task db t.taskId = some t :=
  find?_of_mem_nodup db.tasks t hnd hm

/-! ## Helper lemmas: trailing-slash stripping (for the pattern claims) -/

theorem rstrip_append (q t : List Char) :
    rstripSlashes (q ++ t)
      = if rstripSlashes t = [] then rstripSlashes q else q ++ rstripSlashes t := by
  induction q with
  | nil =>
    simp only [List.nil_append]
    split
    · next h => rw [h]; rfl
    · rfl
  | cons c q ih =>
    by_cases h : rstripSlashes t = []
    · rw [if_pos h]
      show rstripSlashes (c :: (q ++ t)) = rstripSlashes (c :: q)
      simp only [rstripSlashes]
      rw [ih, if_pos h]
    · rw [if_neg h]
      show rstripSlashes (c :: (q ++ t)) = c :: (q ++ rstripSlashes t)
      simp only [rstripSlashes]
      rw [ih, if_neg h]
      cases hqt : q ++ rstripSlashes t with
      | nil => exact absurd (List.append_eq_nil.mp hqt).2 h
      | cons x xs => rfl

theorem rstrip_append_slash (q s : List Char) (hq : rstripSlashes q = q) :
    rstripSlashes (q ++ '/' :: s) = q
      ∨ ∃ r, rstripSlashes (q ++ '/' :: s) = q ++ '/' :: r := by
  have h := rstrip_append q ('/' :: s)
  have hsl : rstripSlashes ('/' :: s)
      = match rstripSlashes s with
        | [] => []
        | r => '/' :: r := by
    simp [rstripSlashes]
  cases hrs : rstripSlashes s with
  | nil =>
    left
    rw [h, hsl, hrs]
    simp [hq]
  | cons a r =>
    right
    refine ⟨a :: r, ?_⟩
    rw [h, hsl, hrs]
    simp

theorem startsWithChars_self_append (l r : List Char) :
    startsWithChars l (l ++ r) = true := by
  induction l with
  | nil => rfl
  | cons a l ih => simp [startsWithChars, ih]

/-! ## Helper lemmas: one pass of the retry handler -/

theorem process_failed_tasks_enabled (m : Nat) (db : DB) :
    process_failed_tasks m true db
      = (get_tasks_by_status db .VALIDATION_FAILED).foldl
          (fun d u => retryStep m d u.taskId) db := rfl

theorem ids_process_failed (m : Nat) (db : DB) :
    (process_failed_tasks m true db).tasks.map Task.taskId
      = db.tasks.map Task.taskId := by
  rw [process_failed_tasks_enabled]
  exact fold_retry_ids m _ db

/-- The effect of one loop iteration on the task's own row, given its
current row. -/
theorem retryStep_at_self (maxR : Nat) (db : DB) (t : Task)
    (hm : get_task db t.taskId = some t) :
    get_task (retryStep maxR db t.taskId) t.taskId
      = if maxR ≤ t.retryCount then some { t with status := .FAILED }
        else if (get_validations_for_task db t.taskId).isEmpty then some t
        else some { t with
                      retryCount := t.retryCount + 1
                      status := .CODE_DONE
                      lastFeedback :=
                        some (build_feedback t.taskId
                          (get_validations_for_task db t.taskId)) } := by
  have hcur : get_retry_count db t.taskId = t.retryCount := by
    unfold get_retry_count
    rw [hm]
  simp only [retryStep, hcur]
  by_cases h1 : maxR ≤ t.retryCount
  · rw [if_pos h1, if_pos h1, get_task_update_task_status, if_pos rfl, hm]
    rfl
  · rw [if_neg h1, if_neg h1]
    by_cases h2 : (get_validations_for_task db t.taskId).isEmpty = true
    · rw [if_pos h2, if_pos h2]
      exact hm
    · rw [if_neg h2, if_neg h2, get_task_update_task_status, if_pos rfl,
        get_task_increment_retry, if_pos rfl, hm]
      rfl

/-- For a task currently in `VALIDATION_FAILED`, one run of the handler
acts on its row exactly as the loop body run against the initial store
does: the other iterations touch other task ids only (ids are unique). -/
theorem process_failed_get (maxR : Nat) (db : DB) (t : Task)
    (hnd : (db.tasks.map Task.taskId).Nodup)
    (hm : get_task db t.taskId = some t)
    (hs : t.status = .VALIDATION_FAILED) :
    get_task (process_failed_tasks maxR true db) t.taskId
      = get_task (retryStep maxR db t.taskId) t.taskId := by
  have htmem : t ∈ db.tasks := List.mem_of_find?_eq_some hm
  have htS : t ∈ get_tasks_by_status db .VALIDATION_FAILED := by
    unfold get_tasks_by_status
    exact List.mem_filter.mpr ⟨htmem, by simp [hs]⟩
  obtain ⟨l1, l2, hSeq⟩ := List.append_of_mem htS
  have hndS : ((get_tasks_by_status db .VALIDATION_FAILED).map Task.taskId).Nodup := by
    have hsub : List.Sublist (get_tasks_by_status db .VALIDATION_FAILED) db.tasks :=
      List.filter_sublist _
    exact hnd.sublist (hsub.map Task.taskId)
  rw [hSeq] at hndS
  simp only [List.map_append, List.map_cons] at hndS
  have hl1 : ∀ u ∈ l1, u.taskId ≠ t.taskId := by
    intro u hu he
    rcases List.nodup_append.mp hndS with ⟨_, _, hdisj⟩
    exact hdisj (List.mem_map_of_mem Task.taskId hu)
      (he ▸ List.mem_cons_self _ _)
  have hl2 : ∀ u ∈ l2, u.taskId ≠ t.taskId := by
    intro u hu he
    rcases List.nodup_append.mp hndS with ⟨_, hcons, _⟩
    rcases List.nodup_cons.mp hcons with ⟨hnotin, _⟩
    exact hnotin (he ▸ List.mem_map_of_mem Task.taskId hu)
  have hdb1t : get_task (l1.foldl (fun d u => retryStep maxR d u.taskId) db) t.taskId
      = some t := by
    rw [fold_retry_frame maxR l1 db t.taskId hl1]
    exact hm
  have hdb1v : get_validations_for_task
        (l1.foldl (fun d u => retryStep maxR d u.taskId) db) t.taskId
      = get_validations_for_task db t.taskId := by
    unfold get_validations_for_task
    rw [fold_retry_validations]
  rw [process_failed_tasks_enabled, hSeq, List.foldl_append, List.foldl_cons,
    fold_retry_frame maxR l2 _ t.taskId hl2,
    retryStep_at_self maxR _ t hdb1t, retryStep_at_self maxR db t hm, hdb1v]

/-- A task whose status is not `VALIDATION_FAILED` is not selected and
keeps its row across one handler run. -/
theorem process_failed_frame (maxR : Nat) (db : DB) (t : Task)
    (hnd : (db.tasks.map Task.taskId).Nodup)
    (hm : get_task db t.taskId = some t)
    (hs : t.status ≠ .VALIDATION_FAILED) :
    get_task (process_failed_tasks maxR true db) t.taskId = some t := by
  rw [process_failed_tasks_enabled]
  rw [fold_retry_frame maxR _ db t.taskId ?h]
  · exact hm
  case h =>
    intro u hu he
    have humem : u ∈ db.tasks := (List.mem_filter.mp hu).1
    have hust := (List.mem_filter.mp hu).2
    have hgu : get_task db u.taskId = some u := get_task_of_mem_nodup db u hnd humem
    rw [he, hm] at hgu
    have hut : u = t := by
      injection hgu with h'
      exact h'.symm
    rw [hut] at hust
    simp only [beq_iff_eq] at hust
    exact hs hust

/-- `validate_file_access` is `_handle_decision` applied to the pure
decision (the allowed fast path coincides with what `_handle_decision`
returns for an allowed decision). -/
theorem validate_eq_handle (m : AccessControlManager) (fp op : String) :
    validate_file_access m fp op
      = handle_decision m (accessDecision m fp).1 (accessDecision m fp).2 fp op := by
  cases hn : normalize_path m.worktree_path fp with
  | error e =>
    have h1 : validate_file_access m fp op
        = handle_decision m .DENIED_PATH_TRAVERSAL
            ("Path traversal detected: " ++ e) fp op := by
      unfold validate_file_access
      rw [hn]
    have h2 : accessDecision m fp
        = (.DENIED_PATH_TRAVERSAL, "Path traversal detected: " ++ e) := by
      unfold accessDecision
      rw [hn]
    rw [h1, h2]
  | ok np =>
    have h1 : validate_file_access m fp op
        = (match relative_to np m.worktree_path with
           | none =>
             handle_decision m .DENIED_PATH_TRAVERSAL
               ("Path outside worktree: " ++ pathToString np) fp op
           | some rel =>
             if is_excluded m (relStr rel) then
               handle_decision m .DENIED_EXCLUDED
                 "Path matches exclusion pattern" fp op
             else if allow_all m || is_allowed m (relStr rel) then
               Except.ok (.ALLOWED, "Access granted")
             else
               handle_decision m .DENIED_NOT_IN_ALLOW
                 "Path not in allow list" fp op) := by
      unfold validate_file_access
      rw [hn]
    have h2 : accessDecision m fp
        = (match relative_to np m.worktree_path with
           | none =>
             (.DENIED_PATH_TRAVERSAL, "Path outside worktree: " ++ pathToString np)
           | some rel =>
             if is_excluded m (relStr rel) then
               (.DENIED_EXCLUDED, "Path matches exclusion pattern")
             else if allow_all m || is_allowed m (relStr rel) then
               (.ALLOWED, "Access granted")
             else
               (.DENIED_NOT_IN_ALLOW, "Path not in allow list")) := by
      unfold accessDecision
      rw [hn]
    rw [h1, h2]
    cases hrel : relative_to np m.worktree_path with
    | none => rfl
    | some rel =>
      show (if is_excluded m (relStr rel) then
              handle_decision m .DENIED_EXCLUDED
                "Path matches exclusion pattern" fp op
            else if allow_all m || is_allowed m (relStr rel) then
              Except.ok (.ALLOWED, "Access granted")
            else
              handle_decision m .DENIED_NOT_IN_ALLOW
                "Path not in allow list" fp op)
          = handle_decision m
              (if is_excluded m (relStr rel) then
                 (AccessDecision.DENIED_EXCLUDED, "Path matches exclusion pattern")
               else if allow_all m || is_allowed m (relStr rel) then
                 (AccessDecision.ALLOWED, "Access granted")
               else
                 (AccessDecision.DENIED_NOT_IN_ALLOW, "Path not in allow list")).1
              (if is_excluded m (relStr rel) then
                 (AccessDecision.DENIED_EXCLUDED, "Path matches exclusion pattern")
               else if allow_all m || is_allowed m (relStr rel) then
                 (AccessDecision.ALLOWED, "Access granted")
               else
                 (AccessDecision.DENIED_NOT_IN_ALLOW, "Path not in allow list")).2
              fp op
      by_cases hexc : is_excluded m (relStr rel) = true
      · rw [if_pos hexc, if_pos hexc]
      · rw [if_neg hexc, if_neg hexc]
        by_cases hal : (allow_all m || is_allowed m (relStr rel)) = true
        · rw [if_pos hal, if_pos hal]
          simp [handle_decision]
        · rw [if_neg hal, if_neg hal]

/-! ## Claim theorems -/

/-- C1: the merge gate is claimed to consult the MOST RECENT `logic`
and `tech` validation records.  `check_task_ready_for_merge` orders the
rows `created_at DESC` and then builds a Python dict keyed by validator
type, in which later rows overwrite earlier ones, so each type ends up
mapped to its OLDEST record.  On a history logic:`no_go`, logic:`go`,
tech:`go` the code refuses a task whose latest validations both pass,
and on logic:`go`, logic:`no_go`, tech:`go` it approves a task whose
latest logic validation failed. -/
theorem C1_merge_gate_consults_oldest_record :
    check_task_ready_for_merge dbMergeGateA "T1" = false
    ∧ specReadyForMerge dbMergeGateA "T1" = true
    ∧ check_task_ready_for_merge dbMergeGateB "T1" = true
    ∧ specReadyForMerge dbMergeGateB "T1" = false := by
  decide

/-- C2 (amended): the Task Store applies every requested status change
unconditionally — `update_task_status` performs the `UPDATE` with no
edge validation, so transitions outside the state graph are applied
rather than rejected. -/
theorem C2_update_task_status_is_unconditional (db : DB) (tid : String)
    (st : TaskStatus) (t : Task) (hm : get_task db tid = some t) :
    get_task (update_task_status db tid st) tid = some { t with status := st } := by
  rw [get_task_update_task_status, if_pos rfl, hm]
  rfl

/-- C2 witness: the amended theorem applied to a concrete store. -/
theorem C2_update_task_status_is_unconditional_witness :
    get_task (update_task_status dbStatusW "T1" .DISPATCHED) "T1"
      = some { taskSpecReady with status := .DISPATCHED } :=
  C2_update_task_status_is_unconditional dbStatusW "T1" .DISPATCHED taskSpecReady
    (by decide)

/-- C2 counterexample: `MERGED → SPEC_READY` is outside the state graph,
yet requesting it changes the stored status — the claim's required
no-op rejection does not happen. -/
theorem C2_invalid_transition_applied_cex :
    specAllowedEdge .MERGED .SPEC_READY = false
    ∧ (get_task dbStatusCex "T1").map Task.status = some .MERGED
    ∧ (get_task (update_task_status dbStatusCex "T1" .SPEC_READY) "T1").map Task.status
        = some .SPEC_READY := by
  decide

/-- C3: whenever normalisation succeeds and the worktree-relative path
matches at least one exclude pattern and at least one allow pattern,
the decision is `denied_excluded` — exclusions are checked before the
allow list, for every policy and operation. -/
theorem C3_exclusion_wins_over_allow (m : AccessControlManager) (fp : String)
    (np : PathP) (rel : List String)
    (h1 : normalize_path m.worktree_path fp = .ok np)
    (h2 : relative_to np m.worktree_path = some rel)
    (h3 : is_excluded m (relStr rel) = true)
    (_h4 : is_allowed m (relStr rel) = true) :
    (accessDecision m fp).1 = .DENIED_EXCLUDED := by
  simp [accessDecision, h1, h2, h3]

/-- C3 witness: Scenario B — `allow=["src/auth/**"]`,
`exclude=["src/auth/secrets.py"]`, path `src/auth/secrets.py`. -/
theorem C3_exclusion_wins_over_allow_witness :
    is_allowed mgrScenB "src/auth/secrets.py" = true
    ∧ (accessDecision mgrScenB "src/auth/secrets.py").1 = .DENIED_EXCLUDED :=
  ⟨by decide,
   C3_exclusion_wins_over_allow mgrScenB "src/auth/secrets.py"
     ⟨true, ["w", "src", "auth", "secrets.py"]⟩ ["src", "auth", "secrets.py"]
     rfl rfl (by decide) (by decide)⟩

/-- C4: a path with a `..` segment, or an absolute path that does not
lie under the workspace root, is decided `denied_path_traversal`
whatever the allow and exclude lists contain (relative paths are made
absolute under the root, so these are exactly the paths that resolve
outside it in this lexical model). -/
theorem C4_traversal_always_denied (m : AccessControlManager) (fp : String)
    (_hwt : m.worktree_path.absolute = true)
    (h : (parsePath fp).segs.contains ".." = true
         ∨ ((parsePath fp).absolute = true
             ∧ m.worktree_path.segs.isPrefixOf (parsePath fp).segs = false)) :
    (accessDecision m fp).1 = .DENIED_PATH_TRAVERSAL := by
  by_cases hdd : (parsePath fp).segs.contains ".." = true
  · have hn : normalize_path m.worktree_path fp
        = .error ("Path traversal detected: " ++ fp) := by
      simp only [normalize_path]
      rw [if_pos hdd]
    simp [accessDecision, hn]
  · rcases h with h | ⟨ha, hp⟩
    · exact absurd h hdd
    · have hn : normalize_path m.worktree_path fp = .ok (parsePath fp) := by
        simp only [normalize_path]
        rw [if_neg hdd, if_pos ha]
      have hcond : ¬(((parsePath fp).absolute == m.worktree_path.absolute
          && m.worktree_path.segs.isPrefixOf (parsePath fp).segs) = true) := by
        rw [hp, Bool.and_false]
        exact Bool.false_ne_true
      have hr : relative_to (parsePath fp) m.worktree_path = none := by
        simp only [relative_to]
        rw [if_neg hcond]
      simp [accessDecision, hn, hr]

/-- C4 witness: `../etc/passwd` is denied as traversal even under a
permissive allow list. -/
theorem C4_traversal_always_denied_witness :
    (parsePath "../etc/passwd").segs.contains ".." = true
    ∧ (accessDecision mgrTraversal "../etc/passwd").1 = .DENIED_PATH_TRAVERSAL :=
  ⟨by decide,
   C4_traversal_always_denied mgrTraversal "../etc/passwd" (by decide)
     (Or.inl (by decide))⟩

/-- C9: in `block` mode every non-allowed decision raises
`AccessViolation` instead of being returned, so a `(decision, reason)`
pair reaches the caller only when the access is allowed; in `log` and
`ask` modes the pair — allowed or denied — is returned unchanged. -/
theorem C9_block_mode_raises_on_denial (m : AccessControlManager) (fp op : String) :
    (m.mode = .BLOCK →
       ∀ d r, validate_file_access m fp op = .ok (d, r) → d = .ALLOWED)
    ∧ (m.mode ≠ .BLOCK →
       validate_file_access m fp op = .ok (accessDecision m fp)) := by
  constructor
  · intro hb d r hok
    rw [validate_eq_handle] at hok
    by_cases hD : (accessDecision m fp).1 = .ALLOWED
    · have hallw : handle_decision m (accessDecision m fp).1 (accessDecision m fp).2 fp op
          = .ok ((accessDecision m fp).1, (accessDecision m fp).2) := by
        simp [handle_decision, hD]
      rw [hallw] at hok
      injection hok with hp
      exact (congrArg Prod.fst hp).symm.trans hD
    · have herr : handle_decision m (accessDecision m fp).1 (accessDecision m fp).2 fp op
          = .error (violationMessage (accessDecision m fp).1 (accessDecision m fp).2
              fp op) := by
        simp [handle_decision, hb, beq_eq_false_iff_ne.mpr hD]
      rw [herr] at hok
      cases hok
  · intro hb
    rw [validate_eq_handle]
    simp [handle_decision, beq_eq_false_iff_ne.mpr hb]

/-- C9 witness: a blocked exclusion raises (no pair is returned), and
the theorem's guarantee instantiated at that input. -/
theorem C9_block_mode_raises_on_denial_witness :
    exceptIsOk (validate_file_access mgrBlock "secrets.txt" "write") = false
    ∧ (validate_file_access mgrBlock "secrets.txt" "write"
         = .ok (.DENIED_EXCLUDED, "Path matches exclusion pattern")
       → AccessDecision.DENIED_EXCLUDED = .ALLOWED) :=
  ⟨by decide,
   (C9_block_mode_raises_on_denial mgrBlock "secrets.txt" "write").1 rfl
     .DENIED_EXCLUDED "Path matches exclusion pattern"⟩

/-- C6: on a conflicting merge the task's branch is merged-aborted
immediately (the repository ends clean and is never auto-resolved), the
branch and worktree survive for manual resolution and the task is
marked `MERGE_CONFLICT` — but the persisted conflict report does NOT
list the conflicting files: `get_merge_conflicts` is queried after the
abort, returns nothing, and the report stores an empty file list with a
placeholder in the message, contradicting the in-source comment that
claims the files are recovered from the error. -/
theorem C6_conflict_aborts_clean_but_report_has_no_files :
    (merge_task oracleConflict cfgMerger stMerge "T1").1 = false
    ∧ (merge_task oracleConflict cfgMerger stMerge "T1").2.repo.conflictFiles = []
    ∧ (merge_task oracleConflict cfgMerger stMerge "T1").2.repo.branches
        = ["main", "feature/T1"]
    ∧ (merge_task oracleConflict cfgMerger stMerge "T1").2.repo.worktrees = ["T1"]
    ∧ (get_task (merge_task oracleConflict cfgMerger stMerge "T1").2.db "T1").map
        Task.status = some .MERGE_CONFLICT
    ∧ (merge_task oracleConflict cfgMerger stMerge "T1").2.reports.map
        ConflictReport.conflictingFiles = [[]] := by
  decide

/-- C7 (amended): with the dependency check enabled
(`phase2.check_dependencies`, the default), a task one of whose
dependencies exists but is not `MERGED` is never dispatched: the call
returns false and the store and repository are left untouched, so the
task stays `SPEC_READY` for a future poll. -/
theorem C7_unmet_dependency_skips_dispatch (env : DispatchEnv)
    (cfg : DispatchConfig) (db : DB) (repo : RepoState) (tid : String)
    (task : Task) (deps : List String) (d : String) (dt : Task)
    (hc : cfg.checkDependencies = true)
    (hm : get_task db tid = some task)
    (hd : task.dependencies = some deps)
    (hmem : d ∈ deps)
    (hdt : get_task db d = some dt)
    (hst : dt.status ≠ .MERGED) :
    dispatch_task env cfg db repo tid = (false, db, repo) := by
  have hcd : check_dependencies db task = false := by
    have hne : ¬deps.isEmpty = true := by
      cases deps with
      | nil => cases hmem
      | cons a l => simp
    unfold check_dependencies
    rw [hd]
    show (if deps.isEmpty = true then true
          else deps.all fun d0 =>
            match get_task db d0 with
            | none => false
            | some dt0 => dt0.status == TaskStatus.MERGED) = false
    rw [if_neg hne]
    cases hall : deps.all (fun d0 =>
        match get_task db d0 with
        | none => false
        | some dt0 => dt0.status == .MERGED) with
    | false => rfl
    | true =>
      exfalso
      have hp := List.all_eq_true.mp hall d hmem
      rw [hdt] at hp
      simp only [beq_iff_eq] at hp
      exact hst hp
  unfold dispatch_task
  rw [hm]
  simp [hc, hcd]

/-- C7 witness: Scenario A — T1 depends on T2, which is `CODE_DONE`;
dispatching T1 is a no-op. -/
theorem C7_unmet_dependency_skips_dispatch_witness :
    dispatch_task envDispatch cfgDispatchOn dbDispatch repoDispatch "T1"
      = (false, dbDispatch, repoDispatch) :=
  C7_unmet_dependency_skips_dispatch envDispatch cfgDispatchOn dbDispatch
    repoDispatch "T1" taskDep1 ["T2"] "T2" taskDep2 rfl (by decide) (by decide)
    (by decide) (by decide) (by decide)

/-- C7 counterexample: with `check_dependencies` disabled in the phase-2
configuration the same task IS dispatched although its dependency T2 is
only `CODE_DONE`, so the claim's unconditional "never" fails on the
code. -/
theorem C7_dependency_check_disabled_dispatches_cex :
    (get_task dbDispatch "T2").map Task.status = some .CODE_DONE
    ∧ (dispatch_task envDispatch cfgDispatchOff dbDispatch repoDispatch "T1").1 = true
    ∧ (get_task (dispatch_task envDispatch cfgDispatchOff dbDispatch
          repoDispatch "T1").2.1 "T1").map Task.status = some .DISPATCHED := by
  decide

/-- C8 (amended): in `_matches_pattern`, `*` is fnmatch-style and
matches across `/` boundaries just like `**`; a pattern whose final
segment has no `.` matches itself and every descendant path (shown for
every normalised pattern); and matching is case-sensitive over
forward-slash paths. -/
theorem C8_pattern_semantics :
    (∀ p s : List Char,
       replaceBackslash p = p →
       rstripSlashes p = p →
       containsDot (lastSegment p) = false →
       matches_patternL p p = true ∧ matches_patternL (p ++ '/' :: s) p = true)
    ∧ matches_patternL "src/a/b.py".data "src/*.py".data = true
    ∧ matches_patternL "src/a/b/c.py".data "src/**".data = true
    ∧ matches_patternL "src/a/b/c.py".data "src/**/*.py".data = true
    ∧ matches_patternL "SRC/a.py".data "src/*.py".data = false := by
  refine ⟨?_, by decide, by decide, by decide, by decide⟩
  intro p s hb hs hd
  constructor
  · simp only [matches_patternL]
    rw [hb, hs, hd]
    simp
  · simp only [matches_patternL]
    rw [hb, hs, hd]
    rcases rstrip_append_slash p s hs with h | ⟨r, h⟩
    · rw [h]
      simp
    · rw [h]
      have hsw : startsWithChars (p ++ ['/']) (p ++ '/' :: r) = true := by
        have he : p ++ '/' :: r = (p ++ ['/']) ++ r := by simp
        rw [he]
        exact startsWithChars_self_append _ _
      simp [hsw]

/-- C8 witness: the universal descendant clause of the amended claim at
a concrete extension-free pattern. -/
theorem C8_pattern_semantics_witness :
    matches_patternL ("docs".data ++ '/' :: "guide/install.md".data) "docs".data
      = true :=
  (C8_pattern_semantics.1 "docs".data "guide/install.md".data (by decide)
    (by decide) (by decide)).2

/-- C8 counterexample: the claim says `*` never matches across a `/`
boundary, but the source's matcher accepts `src/a/b.py` against
`src/*.py` (fnmatch lets `*` swallow the slash), which the claimed
one-segment semantics rejects. -/
theorem C8_star_crosses_segments_cex :
    matches_patternL "src/a/b.py".data "src/*.py".data = true
    ∧ specMatches "src/a/b.py".data "src/*.py".data = false := by
  decide

/-- C5 (amended): one run of the retry handler over a task in
`VALIDATION_FAILED` with unique task ids: below the cap AND with at
least one validation record on file, the retry counter is incremented
by exactly one, the structured feedback built from the `no_go` records
is persisted, and the status returns to `CODE_DONE`; at or above the
cap the task is marked `FAILED` with its counter and feedback
untouched, and a further handler run leaves it `FAILED` — no more
retries are ever issued. -/
theorem C5_retry_loop_behaviour (maxR : Nat) (db : DB) (t : Task)
    (hnd : (db.tasks.map Task.taskId).Nodup)
    (hm : get_task db t.taskId = some t)
    (hs : t.status = .VALIDATION_FAILED) :
    (t.retryCount < maxR → get_validations_for_task db t.taskId ≠ [] →
       get_task (process_failed_tasks maxR true db) t.taskId
         = some { t with
                    retryCount := t.retryCount + 1
                    status := .CODE_DONE
                    lastFeedback :=
                      some (build_feedback t.taskId
                        (get_validations_for_task db t.taskId)) })
    ∧ (maxR ≤ t.retryCount →
        get_task (process_failed_tasks maxR true db) t.taskId
          = some { t with status := .FAILED })
    ∧ (maxR ≤ t.retryCount →
        get_task (process_failed_tasks maxR true (process_failed_tasks maxR true db))
            t.taskId
          = some { t with status := .FAILED }) := by
  have hkey := process_failed_get maxR db t hnd hm hs
  refine ⟨?_, ?_, ?_⟩
  · intro hr hv
    have hvne : ¬(get_validations_for_task db t.taskId).isEmpty = true := by
      cases hvl : get_validations_for_task db t.taskId with
      | nil => exact absurd hvl hv
      | cons a l => simp
    rw [hkey, retryStep_at_self maxR db t hm, if_neg (Nat.not_le.mpr hr), if_neg hvne]
  · intro hr
    rw [hkey, retryStep_at_self maxR db t hm, if_pos hr]
  · intro hr
    have h1 : get_task (process_failed_tasks maxR true db) t.taskId
        = some { t with status := TaskStatus.FAILED } := by
      rw [hkey, retryStep_at_self maxR db t hm, if_pos hr]
    have hnd' : ((process_failed_tasks maxR true db).tasks.map Task.taskId).Nodup := by
      rw [ids_process_failed]
      exact hnd
    exact process_failed_frame maxR (process_failed_tasks maxR true db)
      { t with status := TaskStatus.FAILED } hnd' h1 (by simp)

/-- C5 witness: the amended theorem's retry branch at a concrete store
(one `no_go` logic validation, retry counter 0, cap 3). -/
theorem C5_retry_loop_behaviour_witness :
    get_task (process_failed_tasks 3 true dbRetryW) "T1"
      = some { taskRetryW with
                 retryCount := 1
                 status := .CODE_DONE
                 lastFeedback :=
                   some (build_feedback "T1" (get_validations_for_task dbRetryW "T1")) } :=
  (C5_retry_loop_behaviour 3 dbRetryW taskRetryW (by decide) (by decide)
    (by decide)).1 (by decide) (by decide)

/-- C5 counterexample: a `VALIDATION_FAILED` task with retry count 0
(< 3) but NO validation records is skipped by the handler — its status
stays `VALIDATION_FAILED` and its counter stays 0, not the claimed
increment-and-`CODE_DONE`. -/
theorem C5_no_validations_not_retried_cex :
    (get_task (process_failed_tasks 3 true dbRetryNoVal) "T1").map Task.status
        = some .VALIDATION_FAILED
    ∧ (get_task (process_failed_tasks 3 true dbRetryNoVal) "T1").map Task.retryCount
        = some 0
    ∧ taskRetryW.retryCount = 0 := by
  decide

/-- C10: a `VALIDATION_FAILED` task with zero validation records and a
retry counter below the cap is left entirely unchanged by one handler
run — same status, same counter, same feedback. -/
theorem C10_no_validations_leaves_task_unchanged (maxR : Nat) (db : DB) (t : Task)
    (hnd : (db.tasks.map Task.taskId).Nodup)
    (hm : get_task db t.taskId = some t)
    (hs : t.status = .VALIDATION_FAILED)
    (hv : get_validations_for_task db t.taskId = [])
    (hr : t.retryCount < maxR) :
    get_task (process_failed_tasks maxR true db) t.taskId = some t := by
  have hv' : (get_validations_for_task db t.taskId).isEmpty = true := by
    rw [hv]
    rfl
  rw [process_failed_get maxR db t hnd hm hs, retryStep_at_self maxR db t hm,
    if_neg (Nat.not_le.mpr hr), if_pos hv']

/-- C10 witness: the theorem at the concrete store with no validation
records. -/
theorem C10_no_validations_leaves_task_unchanged_witness :
    get_task (process_failed_tasks 3 true dbRetryNoVal) "T1" = some taskRetryW :=
  C10_no_validations_leaves_task_unchanged 3 dbRetryNoVal taskRetryW (by decide)
    (by decide) (by decide) (by decide) (by decide)

end Blueprint
